import Mathlib

/-!
Verification of the microscan firmware (src/main.rs): a shallow embedding of
the RSSI signal-processing pipeline (the `BeaconScanCallback::beacon`
callback), the display tick handler (`timer1`) and the scan-timer handler
(`timer0`), together with theorems settling the specification's claims.

Modelling conventions:
- `u32` values are `Nat` reduced modulo `2^32`; `wrapping_sub` is `wrapSub`.
- `u8` values are `Nat` kept below 256 by construction; Rust
  `saturating_sub` on unsigned integers is Lean's truncated `Nat`
  subtraction.
- `i8` values are `Int` in the range `[-128, 127]`; `i8::abs` is modelled
  with release-profile (two's-complement wrapping) overflow semantics, and
  `as u8` is the two's-complement cast.
- The `ringbuffer` crate's `ConstGenericRingBuffer` is modelled as a `List`
  ordered oldest-first: `enqueue` overwrites the oldest element when the
  buffer is full, `skip` removes the oldest element, `iter().rev()` is
  iteration over the reversed list, `is_full` compares the length with the
  capacity, and `get_signed(-(len))` is the oldest element.
-/

/-- Maximum burst delay in ticks (`MAX_DELAY` in `beacon`). -/
def MAX_DELAY : Nat := 250000

/-- The modulus of the `u32` hardware tick counter. -/
def U32 : Nat := 4294967296

/-- Calibration bias subtracted from every RSSI magnitude (literal `42`). -/
def CALIBRATION_BIAS : Nat := 42

/-- Wrapping subtraction on `u32` values (`u32::wrapping_sub`). -/
def wrapSub (a b : Nat) : Nat := (a % U32 + (U32 - b % U32)) % U32

/-- Rust `i8::abs` with release-profile overflow semantics: `(-128).abs()`
wraps back to `-128`; every other value maps to its absolute value. -/
def i8AbsWrap (r : Int) : Int := if r = -128 then -128 else (Int.natAbs r : Int)

/-- The Rust cast `as u8` applied to an `i8` value: two's-complement
reduction modulo 256. -/
def u8OfI8 (r : Int) : Nat := (r % 256).toNat

/-- The magnitude computation of `beacon` (src/main.rs lines 71-72):
`let mut rssi = rssi.abs() as u8; rssi = rssi.saturating_sub(42);`.
Truncated `Nat` subtraction is exactly `u8::saturating_sub`. -/
def magnitude (r : Int) : Nat := u8OfI8 (i8AbsWrap r) - CALIBRATION_BIAS

/-- One entry of the sample log (`RSSIEntry` in src/main.rs lines 31-34). -/
structure RSSIEntry where
  timestamp : Nat
  rssi : Nat
deriving DecidableEq, Repr

/-- `Default for RSSIEntry` (src/main.rs lines 36-43): timestamp 0,
rssi `u8::MAX`. -/
def RSSIEntry.default : RSSIEntry := ⟨0, 255⟩

/-- `ConstGenericRingBuffer::enqueue`: append at the newest end, overwriting
(dropping) the oldest element when the buffer is at capacity. -/
def rbEnqueue {α : Type} (cap : Nat) (l : List α) (x : α) : List α :=
  if l.length = cap then l.tail ++ [x] else l ++ [x]

/-- The early-exit minimum scan of `beacon` (src/main.rs lines 86-99),
written as a tail recursion over the newest-first (reversed) log:
starting from `acc = u8::MAX` and `k = 0`, each entry whose wrapped age
relative to `now` is strictly below `MAX_DELAY` folds its rssi into the
minimum accumulator and bumps the valid-item counter; the first entry that
fails the test stops the loop (`break`). -/
def scanMinAux (now acc k : Nat) : List RSSIEntry → Nat × Nat
  | [] => (acc, k)
  | e :: rest =>
    if wrapSub now e.timestamp < MAX_DELAY then
      scanMinAux now (min acc e.rssi) (k + 1) rest
    else
      (acc, k)

/-- The full scan of src/main.rs lines 86-99: iterate `log.iter().rev()`
(newest to oldest) with `min_rssi = u8::MAX` and `valid_items = 0`. -/
def scanMin (now : Nat) (log : List RSSIEntry) : Nat × Nat :=
  scanMinAux now 255 0 log.reverse

/-- The validity test of the scan loop (src/main.rs line 91): the entry's
wrapped age relative to the just-enqueued entry is strictly below
`MAX_DELAY`. -/
def validB (now : Nat) (e : RSSIEntry) : Bool :=
  wrapSub now e.timestamp < MAX_DELAY

/-- The trimming loop of `beacon` (src/main.rs lines 101-104):
`while valid_items > 0 { self.log.skip(); valid_items -= 1 }`; `skip`
removes the oldest element. -/
def trimLoop : Nat → List RSSIEntry → List RSSIEntry
  | 0, l => l
  | k + 1, l => trimLoop k l.tail

/-- The minima-window update of `beacon` (src/main.rs lines 106-114):
enqueue the burst minimum into the capacity-4 window, compute the truncating
integer mean over the window contents, then drop the oldest element if the
window is full. Returns the trimmed window and the mean. -/
def windowPush (w : List Nat) (m : Nat) : List Nat × Nat :=
  let w1 := rbEnqueue 4 w m
  let s := w1.foldl (fun a x => a + x) 0
  let avg := s / w1.length
  let w2 := if w1.length = 4 then w1.tail else w1
  (w2, avg)

/-- The mutable state touched by the beacon callback: the sample log
(`log`, capacity 32), the minima window (`rssi_window`, capacity 4) and the
published atomic estimate (`VALUE`). -/
structure ScanState where
  log : List RSSIEntry
  window : List Nat
  value : Nat
deriving DecidableEq, Repr

/-- Boot state: both ring buffers empty (`BeaconScanCallback::default`),
published estimate 0 (`AtomicU8::new(0)`). -/
def initState : ScanState := ⟨[], [], 0⟩

/-- The sample log right after `self.log.enqueue(entry)` (src/main.rs
lines 73-77): the previous log with the entry
`{ timestamp: metadata.timestamp.ticks(), rssi: magnitude }` enqueued. -/
def log1Of (s : ScanState) (t : Nat) (r : Int) : List RSSIEntry :=
  rbEnqueue 32 s.log ⟨t % U32, magnitude r⟩

/-- The `getstamp` read of src/main.rs lines 78-81:
`self.log.get_signed(-(self.log.len() as isize))` is the oldest element of
the ring buffer; the dead `None => 0` arm is kept. -/
def oldestStamp (l : List RSSIEntry) : Nat :=
  match l.head? with
  | some e => e.timestamp
  | none => 0

/-- The `min_rssi` result of the early-exit scan on the post-enqueue log. -/
def burstMin (s : ScanState) (t : Nat) (r : Int) : Nat :=
  (scanMin (t % U32) (log1Of s t r)).1

/-- The `valid_items` result of the early-exit scan on the post-enqueue
log. -/
def burstValid (s : ScanState) (t : Nat) (r : Int) : Nat :=
  (scanMin (t % U32) (log1Of s t r)).2

/-- One invocation of `BeaconScanCallback::beacon` (src/main.rs lines
60-128) with timestamp `t` and optional signed RSSI `rssi?`. When the RSSI
is absent the callback does nothing. Otherwise it computes the magnitude,
enqueues the entry (`log1Of`), reads the oldest timestamp (`oldestStamp`),
and on `is_full || diff > MAX_DELAY` closes a burst: early-exit minimum
scan (`burstMin`, `burstValid`), trim `valid_items` entries from the
oldest end (`trimLoop`), window push and average (`windowPush`), and the
atomic store of the average cast `as u8`. -/
def beaconStep (s : ScanState) (t : Nat) (rssi? : Option Int) : ScanState :=
  match rssi? with
  | none => s
  | some r =>
    if (log1Of s t r).length = 32 ∨
        wrapSub (t % U32) (oldestStamp (log1Of s t r)) > MAX_DELAY then
      { log := trimLoop (burstValid s t r) (log1Of s t r)
        window := (windowPush s.window (burstMin s t r)).1
        value := (windowPush s.window (burstMin s t r)).2 % 256 }
    else
      { s with log := log1Of s t r }

/-- Fold a sequence of advertisements (timestamp, optional rssi) through the
beacon callback, oldest first. -/
def runBeacons (s : ScanState) (inputs : List (Nat × Option Int)) : ScanState :=
  inputs.foldl (fun st p => beaconStep st p.1 p.2) s

/-- Scenario inputs of the three-advertisement test (spec section 8): ticks
0, 100000, 600000 with raw RSSI readings -47, -50, -45, whose post-bias
magnitudes are 5, 8, 3. -/
def c3Inputs : List (Nat × Option Int) :=
  [(0, some (-47)), (100000, some (-50)), (600000, some (-45))]

/-- Scenario inputs producing five closed bursts with minima 10, 20, 30,
40, 50: every sample from the second on closes a single-entry burst because
the leftover oldest entry is more than `MAX_DELAY` ticks older. -/
def c4Inputs : List (Nat × Option Int) :=
  [(0, some (-122)), (300000, some (-52)), (600000, some (-62)),
   (900000, some (-72)), (1200000, some (-82)), (1500000, some (-92))]

/-- The command returned by the scanner state machine
(`rubble::beacon::ScanCommand`): a radio receive configuration and the next
wake time. -/
structure ScannerCmd (Cfg Time : Type) where
  radio : Cfg
  next_update : Time
deriving DecidableEq, Repr

/-- The shared state touched by the `timer0` handler: the scan timer's
hardware pending flag and programmed interrupt time, the radio's receive
configuration, and the scanner state machine. -/
structure Timer0State (Cfg Sched Time : Type) where
  pending : Bool
  compare : Time
  radioCfg : Cfg
  sched : Sched
deriving DecidableEq, Repr

/-- The `timer0` task (src/main.rs lines 219-235) inside its critical
section. The external `scanner.timer_update` collaborator (rubble crate,
outside this repository) is abstracted as the function argument
`timer_update`, which maps the scanner state and the current time to the
new scanner state and a `ScannerCmd`. If the hardware pending flag is not
set the handler returns without side effects; otherwise it clears the flag,
asks the scanner for the next command, applies the radio configuration and
re-arms the timer. -/
def timer0Step {Cfg Sched Time : Type}
    (timer_update : Sched → Time → Sched × ScannerCmd Cfg Time)
    (now : Time) (s : Timer0State Cfg Sched Time) :
    Timer0State Cfg Sched Time :=
  if s.pending then
    let sc := timer_update s.sched now
    { pending := false
      compare := sc.2.next_update
      radioCfg := sc.2.radio
      sched := sc.1 }
  else
    s

/-- Frame-index computation of the `timer1` task (src/main.rs line 194):
`let frame = min(26, rssi);`. -/
def frameIndex (estimate : Nat) : Nat := min 26 estimate

/-- The state touched by the `timer1` display handler: the published
estimate it loads from `VALUE`, the `last_rssi` local, and the frame last
commanded to the display driver via `show`. -/
structure DisplayCtx where
  value : Nat
  last_rssi : Nat
  shownFrame : Option Nat
deriving DecidableEq, Repr

/-- The `timer1` task (src/main.rs lines 191-203): load the published
estimate, clamp it to a frame index, remember it in `last_rssi`, and load
the new frame into the display only when the index changed. -/
def timer1Step (c : DisplayCtx) : DisplayCtx :=
  let rssi := c.value
  let frame := frameIndex rssi
  let last := c.last_rssi
  { value := c.value
    last_rssi := frame
    shownFrame := if last ≠ frame then some frame else c.shownFrame }

/-! ## Theorems -/

/-- C7: a beacon callback invocation whose metadata carries no RSSI value
records no entry and has no further effect: the sample log, the minima
window and the published estimate are all unchanged. -/
theorem beacon_no_rssi_no_effect (s : ScanState) (t : Nat) :
    beaconStep s t none = s := rfl

/-- C8: an RSSI reading whose absolute value is below the calibration bias
42 yields magnitude 0: the saturating subtraction clamps instead of
wrapping to a large unsigned value. -/
theorem magnitude_saturates_below_bias (r : Int) (h : r.natAbs < 42) :
    magnitude r = 0 := by
  have hne : r ≠ -128 := by
    intro hr
    rw [hr] at h
    simp at h
  unfold magnitude u8OfI8 i8AbsWrap CALIBRATION_BIAS
  rw [if_neg hne]
  have h256 : ((r.natAbs : Int)) % 256 = (r.natAbs : Int) := by
    apply Int.emod_eq_of_lt
    · exact Int.ofNat_nonneg _
    · exact_mod_cast Nat.lt_of_lt_of_le h (by norm_num)
  rw [h256]
  rw [Int.toNat_ofNat]
  omega

/-- Witness for C8 at the concrete reading -30. -/
theorem magnitude_saturates_below_bias_witness :
    Int.natAbs (-30) < 42 ∧ magnitude (-30) = 0 :=
  ⟨by decide, magnitude_saturates_below_bias (-30) (by decide)⟩

/-- C10: for every signed 8-bit RSSI value, the magnitude computation
(absolute value with release overflow semantics, cast to `u8`, saturating
subtraction of 42) is total: it equals `|r| - 42` in truncated natural
subtraction and fits in a `u8`, including at the extreme value -128, where
the wrapped absolute value cast to `u8` is 128 and the magnitude is 86. -/
theorem magnitude_total_on_i8 (r : Int) (hlo : -128 ≤ r) (hhi : r ≤ 127) :
    magnitude r = r.natAbs - 42 ∧ magnitude r ≤ 255 := by
  by_cases hr : r = -128
  · subst hr
    constructor
    · decide
    · decide
  · have habs : r.natAbs ≤ 127 := by
      rcases Int.le_total 0 r with h0 | h0
      · omega
      · omega
    unfold magnitude u8OfI8 i8AbsWrap CALIBRATION_BIAS
    rw [if_neg hr]
    have h256 : ((r.natAbs : Int)) % 256 = (r.natAbs : Int) := by
      apply Int.emod_eq_of_lt
      · exact Int.ofNat_nonneg _
      · exact_mod_cast Nat.lt_of_le_of_lt habs (by norm_num)
    rw [h256, Int.toNat_ofNat]
    omega

/-- Witness for C10 at the extreme reading -128. -/
theorem magnitude_total_on_i8_witness :
    (-128 : Int) ≤ -128 ∧ (-128 : Int) ≤ 127 ∧
      (magnitude (-128) = Int.natAbs (-128) - 42 ∧ magnitude (-128) ≤ 255) :=
  ⟨by decide, by decide, magnitude_total_on_i8 (-128) (by decide) (by decide)⟩

/-- C6: if the `timer0` handler runs while the scan timer's hardware
pending flag is not set, it returns without side effects: the radio
configuration, the timer's programmed interrupt and the scanner state
machine are all unchanged, for every behaviour of the external scanner
collaborator. -/
theorem timer0_not_pending_no_effect {Cfg Sched Time : Type}
    (timer_update : Sched → Time → Sched × ScannerCmd Cfg Time)
    (now : Time) (s : Timer0State Cfg Sched Time)
    (h : s.pending = false) :
    timer0Step timer_update now s = s := by
  unfold timer0Step
  rw [h]
  rfl

/-- Witness for C6 on a concrete non-pending state. -/
theorem timer0_not_pending_no_effect_witness :
    (Timer0State.pending ⟨false, 7, 3, 11⟩ = false) ∧
      timer0Step (fun (sch : Nat) (n : Nat) => (sch + 1, ⟨n, n + 500⟩))
        (42 : Nat) (⟨false, 7, 3, 11⟩ : Timer0State Nat Nat Nat) =
        ⟨false, 7, 3, 11⟩ :=
  ⟨rfl, timer0_not_pending_no_effect
    (fun (sch : Nat) (n : Nat) => (sch + 1, ⟨n, n + 500⟩)) 42
    ⟨false, 7, 3, 11⟩ rfl⟩

/-- C9: on every display tick the frame index is `min 26 estimate`: every
estimate at least 26 maps to frame 26, estimate 0 maps to frame 0, the
index never exceeds 26, and the `timer1` handler records exactly this index
in its `last_rssi` local. -/
theorem frame_index_clamps (c : DisplayCtx) :
    (timer1Step c).last_rssi = frameIndex c.value ∧
      (26 ≤ c.value → frameIndex c.value = 26) ∧
      (c.value = 0 → frameIndex c.value = 0) ∧
      frameIndex c.value ≤ 26 := by
  refine ⟨rfl, ?_, ?_, ?_⟩
  · intro h
    unfold frameIndex
    omega
  · intro h
    rw [h]
    decide
  · unfold frameIndex
    omega

/-- Witness for C9 on a concrete display state with estimate 200. -/
theorem frame_index_clamps_witness :
    (timer1Step ⟨200, 3, none⟩).last_rssi = frameIndex 200 ∧
      frameIndex 200 = 26 ∧ frameIndex 200 ≤ 26 :=
  ⟨(frame_index_clamps ⟨200, 3, none⟩).1,
    (frame_index_clamps ⟨200, 3, none⟩).2.1 (by decide),
    (frame_index_clamps ⟨200, 3, none⟩).2.2.2⟩

/-- Helper: the trimming loop removes exactly `k` elements from the oldest
end of the log. -/
theorem trimLoop_eq_drop (k : Nat) (l : List RSSIEntry) :
    trimLoop k l = l.drop k := by
  induction k generalizing l with
  | zero => rfl
  | succ n ih =>
    cases l with
    | nil => simp [trimLoop, ih]
    | cons a l => simp [trimLoop, ih]

/-- Helper: ring-buffer enqueue never grows the buffer past its capacity. -/
theorem rbEnqueue_length_le {α : Type} (cap : Nat) (l : List α) (x : α)
    (hcap : 0 < cap) (h : l.length ≤ cap) :
    (rbEnqueue cap l x).length ≤ cap := by
  unfold rbEnqueue
  by_cases hl : l.length = cap
  · rw [if_pos hl]
    simp only [List.length_append, List.length_tail, List.length_cons,
      List.length_nil]
    omega
  · rw [if_neg hl]
    simp only [List.length_append, List.length_cons, List.length_nil]
    omega

/-- Helper: ring-buffer enqueue leaves the buffer nonempty. -/
theorem rbEnqueue_length_pos {α : Type} (cap : Nat) (l : List α) (x : α) :
    1 ≤ (rbEnqueue cap l x).length := by
  unfold rbEnqueue
  by_cases hl : l.length = cap
  · rw [if_pos hl]
    simp only [List.length_append, List.length_cons, List.length_nil]
    omega
  · rw [if_neg hl]
    simp only [List.length_append, List.length_cons, List.length_nil]
    omega

/-- Helper: the trimmed window returned by `windowPush`. -/
theorem windowPush_fst (w : List Nat) (m : Nat) :
    (windowPush w m).1 =
      if (rbEnqueue 4 w m).length = 4 then (rbEnqueue 4 w m).tail
      else rbEnqueue 4 w m := rfl

/-- Helper: the estimate returned by `windowPush` is the truncating mean
over the post-enqueue window. -/
theorem windowPush_snd (w : List Nat) (m : Nat) :
    (windowPush w m).2 =
      (rbEnqueue 4 w m).foldl (fun a x => a + x) 0 /
        (rbEnqueue 4 w m).length := rfl

/-- Helper: after `windowPush` the minima window holds at most 3 values. -/
theorem windowPush_fst_length_le (w : List Nat) (m : Nat)
    (h : w.length ≤ 4) : (windowPush w m).1.length ≤ 3 := by
  rw [windowPush_fst]
  have hle := rbEnqueue_length_le 4 w m (by norm_num) h
  by_cases h1 : (rbEnqueue 4 w m).length = 4
  · rw [if_pos h1, List.length_tail]
    omega
  · rw [if_neg h1]
    omega

/-- Helper: the burst branch of the beacon callback, unfolded. -/
theorem beaconStep_some_eq_burst (s : ScanState) (t : Nat) (r : Int)
    (hb : (log1Of s t r).length = 32 ∨
      wrapSub (t % U32) (oldestStamp (log1Of s t r)) > MAX_DELAY) :
    beaconStep s t (some r) =
      { log := trimLoop (burstValid s t r) (log1Of s t r)
        window := (windowPush s.window (burstMin s t r)).1
        value := (windowPush s.window (burstMin s t r)).2 % 256 } := by
  simp only [beaconStep]
  rw [if_pos hb]

/-- Helper: one beacon invocation keeps the minima window at 3 values or
fewer. -/
theorem beaconStep_window_le (s : ScanState) (t : Nat) (r? : Option Int)
    (h3 : s.window.length ≤ 3) : (beaconStep s t r?).window.length ≤ 3 := by
  cases r? with
  | none => exact h3
  | some r =>
    by_cases hb : (log1Of s t r).length = 32 ∨
        wrapSub (t % U32) (oldestStamp (log1Of s t r)) > MAX_DELAY
    · rw [beaconStep_some_eq_burst s t r hb]
      exact windowPush_fst_length_le _ _ (by omega)
    · simp only [beaconStep]
      rw [if_neg hb]
      exact h3

/-- C5: the minima window holds at most 4 values at any point, including
the instant right after a burst minimum is appended (the ring buffer
overwrites its oldest slot when full, so there is never a transient fifth
element); at the end of every beacon invocation it holds at most 3 values;
and the published estimate is the truncating integer mean over the
post-append window, whose length is between 1 and 4 — never 5. -/
theorem minima_window_bounded (w : List Nat) (m : Nat) (s : ScanState)
    (t : Nat) (r? : Option Int) (h4 : w.length ≤ 4)
    (h3 : s.window.length ≤ 3) :
    (rbEnqueue 4 w m).length ≤ 4 ∧
    1 ≤ (rbEnqueue 4 w m).length ∧
    (windowPush w m).1.length ≤ 3 ∧
    (windowPush w m).2 =
      (rbEnqueue 4 w m).foldl (fun a x => a + x) 0 /
        (rbEnqueue 4 w m).length ∧
    (beaconStep s t r?).window.length ≤ 3 :=
  ⟨rbEnqueue_length_le 4 w m (by norm_num) h4,
   rbEnqueue_length_pos 4 w m,
   windowPush_fst_length_le w m h4,
   windowPush_snd w m,
   beaconStep_window_le s t r? h3⟩

/-- Witness for C5 on a three-element window and the boot state. -/
theorem minima_window_bounded_witness :
    ([1, 2, 3] : List Nat).length ≤ 4 ∧ initState.window.length ≤ 3 ∧
      ((rbEnqueue 4 [1, 2, 3] 9).length ≤ 4 ∧
        1 ≤ (rbEnqueue 4 [1, 2, 3] 9).length ∧
        (windowPush [1, 2, 3] 9).1.length ≤ 3 ∧
        (windowPush [1, 2, 3] 9).2 =
          (rbEnqueue 4 [1, 2, 3] 9).foldl (fun a x => a + x) 0 /
            (rbEnqueue 4 [1, 2, 3] 9).length ∧
        (beaconStep initState 0 none).window.length ≤ 3) :=
  ⟨by decide, by decide,
    minima_window_bounded [1, 2, 3] 9 initState 0 none (by decide)
      (by decide)⟩

/-- C3: feeding the three advertisements at ticks 0, 100000, 600000 with
post-bias magnitudes 5, 8, 3 from boot state: no burst closes on the first
two samples; the third sample closes a burst (elapsed 600000 exceeds
`MAX_DELAY`), only the newest sample is counted valid, the computed
minimum is 3, it becomes the sole minima-window entry, and the published
estimate becomes 3. -/
theorem scenario_three_advertisements :
    magnitude (-47) = 5 ∧ magnitude (-50) = 8 ∧ magnitude (-45) = 3 ∧
    (runBeacons initState (c3Inputs.take 1)).window = [] ∧
    (runBeacons initState (c3Inputs.take 1)).value = 0 ∧
    (runBeacons initState (c3Inputs.take 2)).window = [] ∧
    (runBeacons initState (c3Inputs.take 2)).value = 0 ∧
    wrapSub (600000 % U32)
      (oldestStamp
        (log1Of (runBeacons initState (c3Inputs.take 2)) 600000 (-45))) =
      600000 ∧
    MAX_DELAY < 600000 ∧
    burstMin (runBeacons initState (c3Inputs.take 2)) 600000 (-45) = 3 ∧
    burstValid (runBeacons initState (c3Inputs.take 2)) 600000 (-45) = 1 ∧
    (runBeacons initState c3Inputs).window = [3] ∧
    (runBeacons initState c3Inputs).value = 3 := by decide

/-- C1 is false as stated: in the three-advertisement scenario the burst
that closes on the third sample computes its minimum 3 from the entry at
tick 600000, yet after the trimming loop that contributing entry is still
in the sample log (the loop removed the oldest entry instead), and the
surviving entry is not expired — its age relative to the newest entry is 0,
below `MAX_DELAY`. -/
theorem burst_trim_leaves_contributing_entry :
    burstMin (runBeacons initState (c3Inputs.take 2)) 600000 (-45) = 3 ∧
    (⟨600000, 3⟩ : RSSIEntry) ∈ (runBeacons initState c3Inputs).log ∧
    wrapSub (600000 % U32) 600000 < MAX_DELAY ∧
    (runBeacons initState c3Inputs).log =
      [⟨100000, 8⟩, ⟨600000, 3⟩] := by decide

/-- C1 (amended): whenever a burst closes, the trimming loop removes
exactly `valid_items` entries from the oldest end of the log, so the log
afterwards consists of the newest `length - valid_items` entries; this
drains exactly the contiguous valid run (leaving the log empty) in the
case where every log entry was counted valid, while otherwise entries that
contributed to the burst minimum can remain in the log. -/
theorem burst_trim_removes_oldest (s : ScanState) (t : Nat) (r : Int)
    (hb : (log1Of s t r).length = 32 ∨
      wrapSub (t % U32) (oldestStamp (log1Of s t r)) > MAX_DELAY) :
    (beaconStep s t (some r)).log =
      (log1Of s t r).drop (burstValid s t r) ∧
    (burstValid s t r = (log1Of s t r).length →
      (beaconStep s t (some r)).log = []) := by
  have heq := beaconStep_some_eq_burst s t r hb
  constructor
  · rw [heq]
    exact trimLoop_eq_drop _ _
  · intro hall
    rw [heq]
    simp only [trimLoop_eq_drop, hall]
    exact List.drop_length _

/-- Witness for the amended C1 on the third advertisement of the scenario. -/
theorem burst_trim_removes_oldest_witness :
    ((log1Of (runBeacons initState (c3Inputs.take 2)) 600000 (-45)).length =
        32 ∨
      wrapSub (600000 % U32)
        (oldestStamp
          (log1Of (runBeacons initState (c3Inputs.take 2)) 600000 (-45))) >
        MAX_DELAY) ∧
    (beaconStep (runBeacons initState (c3Inputs.take 2)) 600000
        (some (-45))).log =
      (log1Of (runBeacons initState (c3Inputs.take 2)) 600000 (-45)).drop
        (burstValid (runBeacons initState (c3Inputs.take 2)) 600000 (-45)) :=
  ⟨by decide,
    (burst_trim_removes_oldest (runBeacons initState (c3Inputs.take 2))
      600000 (-45) (by decide)).1⟩

/-- C4: running the five-burst scenario from boot, the bursts close with
minima 10, 20, 30, 40, 50; after the fourth burst the window was trimmed
to [20, 30, 40], so the fifth burst averages over [20, 30, 40, 50] — the
oldest minimum 10 has been evicted FIFO and does not contribute — and
publishes (20 + 30 + 40 + 50) / 4 = 35. -/
theorem window_fifo_moving_average :
    magnitude (-52) = 10 ∧ magnitude (-62) = 20 ∧ magnitude (-72) = 30 ∧
    magnitude (-82) = 40 ∧ magnitude (-92) = 50 ∧
    (runBeacons initState (c4Inputs.take 2)).value = 10 ∧
    (runBeacons initState (c4Inputs.take 2)).window = [10] ∧
    (runBeacons initState (c4Inputs.take 3)).value = 15 ∧
    (runBeacons initState (c4Inputs.take 4)).value = 20 ∧
    (runBeacons initState (c4Inputs.take 5)).value = 25 ∧
    (runBeacons initState (c4Inputs.take 5)).window = [20, 30, 40] ∧
    rbEnqueue 4 (runBeacons initState (c4Inputs.take 5)).window 50 =
      [20, 30, 40, 50] ∧
    (10 : Nat) ∉ rbEnqueue 4 (runBeacons initState (c4Inputs.take 5)).window
      50 ∧
    (20 + 30 + 40 + 50) / 4 = 35 ∧
    (runBeacons initState c4Inputs).value = 35 ∧
    (runBeacons initState c4Inputs).window = [30, 40, 50] := by decide

/-- Helper: wrapping subtraction of a value from itself is zero. -/
theorem wrapSub_self (a : Nat) : wrapSub a a = 0 := by
  unfold wrapSub U32
  omega

/-- Helper: the early-exit scan folds the minimum over exactly the maximal
valid prefix of the newest-first list and counts its length. -/
theorem scanMinAux_eq (now acc k : Nat) (l : List RSSIEntry) :
    scanMinAux now acc k l =
      ((l.takeWhile (validB now)).foldl (fun a e => min a e.rssi) acc,
        k + (l.takeWhile (validB now)).length) := by
  induction l generalizing acc k with
  | nil => simp [scanMinAux]
  | cons e rest ih =>
    by_cases h : wrapSub now e.timestamp < MAX_DELAY
    · rw [List.takeWhile_cons_of_pos (p := validB now)
        (by simp [validB, h])]
      simp only [scanMinAux, if_pos h, ih, List.foldl_cons,
        List.length_cons]
      congr 1
      omega
    · rw [List.takeWhile_cons_of_neg (p := validB now)
        (by simp [validB, h])]
      simp only [scanMinAux, if_neg h, List.foldl_nil, List.length_nil,
        Nat.add_zero]

/-- Helper: when the wrapped ages are non-decreasing along the list, the
early-exit prefix contains every valid entry: taking while valid equals
filtering the valid entries. -/
theorem takeWhile_valid_eq_filter (now : Nat) (l : List RSSIEntry)
    (h : l.Pairwise
      (fun a b => wrapSub now a.timestamp ≤ wrapSub now b.timestamp)) :
    l.takeWhile (validB now) = l.filter (validB now) := by
  induction l with
  | nil => rfl
  | cons a rest ih =>
    rcases List.pairwise_cons.mp h with ⟨ha, hrest⟩
    by_cases hv : wrapSub now a.timestamp < MAX_DELAY
    · rw [List.takeWhile_cons_of_pos (p := validB now) (by simp [validB, hv]),
        List.filter_cons_of_pos (by simp [validB, hv]), ih hrest]
    · have hnil : rest.filter (validB now) = [] := by
        rw [List.filter_eq_nil_iff]
        intro b hb
        simp only [validB, decide_eq_true_eq, not_lt]
        have := ha b hb
        omega
      rw [List.takeWhile_cons_of_neg (p := validB now)
        (by simp [validB, hv]),
        List.filter_cons_of_neg (by simp [validB, hv]), hnil]

/-- Helper: the minimum fold never exceeds its accumulator. -/
theorem foldl_min_le_acc (l : List RSSIEntry) (acc : Nat) :
    l.foldl (fun a e => min a e.rssi) acc ≤ acc := by
  induction l generalizing acc with
  | nil => exact Nat.le_refl acc
  | cons e rest ih =>
    exact Nat.le_trans (ih (min acc e.rssi)) (Nat.min_le_left _ _)

/-- Helper: the minimum fold is a lower bound of every list element. -/
theorem foldl_min_le_mem (l : List RSSIEntry) (acc : Nat) (e : RSSIEntry)
    (he : e ∈ l) : l.foldl (fun a x => min a x.rssi) acc ≤ e.rssi := by
  induction l generalizing acc with
  | nil => cases he
  | cons a rest ih =>
    rcases List.mem_cons.mp he with heq | hmem
    · subst heq
      exact Nat.le_trans (foldl_min_le_acc rest _) (Nat.min_le_right _ _)
    · exact ih _ hmem

/-- Helper: the minimum fold returns either its accumulator or the rssi of
some list element. -/
theorem foldl_min_acc_or_mem (l : List RSSIEntry) (acc : Nat) :
    l.foldl (fun a x => min a x.rssi) acc = acc ∨
      ∃ e ∈ l, l.foldl (fun a x => min a x.rssi) acc = e.rssi := by
  induction l generalizing acc with
  | nil => exact Or.inl rfl
  | cons a rest ih =>
    rcases ih (min acc a.rssi) with h | ⟨e, he, heq⟩
    · rcases Nat.le_total acc a.rssi with hle | hle
      · left
        rw [List.foldl_cons, h, Nat.min_eq_left hle]
      · right
        exact ⟨a, List.mem_cons_self a rest,
          by rw [List.foldl_cons, h, Nat.min_eq_right hle]⟩
    · right
      exact ⟨e, List.mem_cons_of_mem a he, by rw [List.foldl_cons]; exact heq⟩

/-- Helper: the just-enqueued entry is in the post-enqueue log. -/
theorem entry_mem_log1 (s : ScanState) (t : Nat) (r : Int) :
    (⟨t % U32, magnitude r⟩ : RSSIEntry) ∈ log1Of s t r := by
  unfold log1Of rbEnqueue
  by_cases hl : s.log.length = 32
  · rw [if_pos hl]
    exact List.mem_append_right _ (List.mem_singleton.mpr rfl)
  · rw [if_neg hl]
    exact List.mem_append_right _ (List.mem_singleton.mpr rfl)

/-- C2: whenever the sample log reaches its capacity of 32 after an
enqueue, a burst closes (the callback takes the burst branch), and —
provided the log's entries are time-ordered, i.e. the wrapped ages
relative to the newest entry do not increase from the oldest entry to the
newest (timestamps increasing modulo wraparound), with `u8` magnitudes —
the minimum computed by the newest-to-oldest early-exit scan is a lower
bound of every valid entry's magnitude and is attained by some valid
entry: it equals the true minimum magnitude over all log entries whose age
relative to the newest entry is strictly below `MAX_DELAY`. -/
theorem burst_min_is_true_min (s : ScanState) (t : Nat) (r : Int)
    (hfull : (log1Of s t r).length = 32)
    (hord : (log1Of s t r).Pairwise
      (fun a b =>
        wrapSub (t % U32) b.timestamp ≤ wrapSub (t % U32) a.timestamp))
    (hu8 : ∀ e ∈ log1Of s t r, e.rssi ≤ 255) :
    beaconStep s t (some r) =
      { log := trimLoop (burstValid s t r) (log1Of s t r)
        window := (windowPush s.window (burstMin s t r)).1
        value := (windowPush s.window (burstMin s t r)).2 % 256 } ∧
    (∀ e ∈ log1Of s t r,
      wrapSub (t % U32) e.timestamp < MAX_DELAY → burstMin s t r ≤ e.rssi) ∧
    (∃ e ∈ log1Of s t r,
      wrapSub (t % U32) e.timestamp < MAX_DELAY ∧ burstMin s t r = e.rssi) := by
  have hrev : (log1Of s t r).reverse.Pairwise
      (fun a b =>
        wrapSub (t % U32) a.timestamp ≤ wrapSub (t % U32) b.timestamp) := by
    rw [List.pairwise_reverse]
    exact hord
  have hscan : burstMin s t r =
      ((log1Of s t r).reverse.filter (validB (t % U32))).foldl
        (fun a e => min a e.rssi) 255 := by
    unfold burstMin scanMin
    rw [scanMinAux_eq, takeWhile_valid_eq_filter (t % U32) _ hrev]
  have hlower : ∀ e ∈ log1Of s t r,
      wrapSub (t % U32) e.timestamp < MAX_DELAY →
        burstMin s t r ≤ e.rssi := by
    intro e he hv
    have hmem : e ∈ (log1Of s t r).reverse.filter (validB (t % U32)) := by
      rw [List.mem_filter]
      exact ⟨List.mem_reverse.mpr he, by
        simp only [validB, decide_eq_true_eq]
        exact hv⟩
    rw [hscan]
    exact foldl_min_le_mem _ _ e hmem
  refine ⟨beaconStep_some_eq_burst s t r (Or.inl hfull), hlower, ?_⟩
  have hentry := entry_mem_log1 s t r
  have hvnew : wrapSub (t % U32)
      (RSSIEntry.timestamp ⟨t % U32, magnitude r⟩) < MAX_DELAY := by
    rw [wrapSub_self]
    decide
  rcases foldl_min_acc_or_mem
      ((log1Of s t r).reverse.filter (validB (t % U32))) 255 with hacc | hex
  · refine ⟨⟨t % U32, magnitude r⟩, hentry, hvnew, ?_⟩
    have h1 := hlower _ hentry hvnew
    have h2 := hu8 _ hentry
    rw [hscan] at h1 ⊢
    rw [hacc] at h1 ⊢
    omega
  · rcases hex with ⟨e, he, heq⟩
    rcases List.mem_filter.mp he with ⟨herev, hvb⟩
    refine ⟨e, List.mem_reverse.mp herev, ?_, ?_⟩
    · exact of_decide_eq_true hvb
    · rw [hscan]
      exact heq

/-- Witness for C2: a log of 31 entries at tick 0 with magnitude 50, plus
a fresh sample at tick 0 with magnitude 7, reaches capacity 32; the scan
minimum 7 is attained by a valid entry. -/
theorem burst_min_is_true_min_witness :
    (log1Of ⟨List.replicate 31 ⟨0, 50⟩, [], 0⟩ 0 (-49)).length = 32 ∧
      ∃ e ∈ log1Of ⟨List.replicate 31 ⟨0, 50⟩, [], 0⟩ 0 (-49),
        wrapSub (0 % U32) e.timestamp < MAX_DELAY ∧
          burstMin ⟨List.replicate 31 ⟨0, 50⟩, [], 0⟩ 0 (-49) = e.rssi :=
  ⟨by decide,
    (burst_min_is_true_min ⟨List.replicate 31 ⟨0, 50⟩, [], 0⟩ 0 (-49)
      (by decide) (by decide) (by decide)).2.2⟩
